import Mathlib

/-!
Shallow embedding of the `StripeHelper` class of the rri-stripe-np repository
(source file `src/stripe.ts`; the methods `isUSBankTransfer`,
`isPiUsBankTransfer` and `getCustomersByEmail`, plus the response DTO types).

Modelling choices:
- The external Stripe client is a record of pure functions returning
  `Except String _` (an `error` models a rejected promise / thrown error).
- Every network call a method makes is recorded, in order, in a call trace
  (`List ApiCall`); each method returns its boolean / optional result paired
  with the trace of calls it performed.
- JavaScript string falsiness (`!s` true for `undefined` and `""`) is modelled
  on `Option String` by `strTruthy`; strict equality `a === b` between a
  string and a possibly-undefined string is `strictEqOpt`.
- JavaScript `String.prototype.startsWith` is modelled as character-list
  prefix (`List.isPrefixOf` on `String.data`).
- Optional runtime fields (`charge.payment_intent`,
  `charge.payment_method_details`, `pi.charges`, `pi.latest_charge`, `pi.id`)
  are `Option`-valued, matching the guards the source performs on them.
-/

namespace RriStripeNp

/-- The `payment_method_details` object of a Stripe charge: carries the
`type` discriminator string. -/
structure PaymentMethodDetails where
  type : String
  deriving DecidableEq

/-- A Stripe charge record, with the fields the source reads:
`id`, the optional `payment_intent` back-reference, and the optional
`payment_method_details` object. -/
structure Charge where
  id : String
  payment_intent : Option String := none
  payment_method_details : Option PaymentMethodDetails := none
  deriving DecidableEq

/-- The embedded `charges` list object of a payment intent. -/
structure ChargeList where
  data : List Charge
  deriving DecidableEq

/-- A Stripe payment-intent record, with the fields the source reads:
`id`, `latest_charge` and the optional embedded `charges` list.
Fields that the source guards with falsiness checks are `Option`-valued. -/
structure PaymentIntent where
  id : Option String := none
  latest_charge : Option String := none
  charges : Option ChargeList := none
  deriving DecidableEq

/-- A Stripe customer record (the fields the repository declares). -/
structure Customer where
  id : String
  email : String
  deriving DecidableEq

/-- The result object of `stripe.customers.search`: carries a `data` list. -/
structure SearchResult where
  data : List Customer
  deriving DecidableEq

/-- JavaScript truthiness of a possibly-undefined string:
`undefined` and `""` are falsy, every other string is truthy. -/
def strTruthy : Option String → Bool
  | none => false
  | some s => !(s == "")

/-- JavaScript strict equality `s === t` where `s` is a string and `t` is a
possibly-undefined string: `s === undefined` is `false`. -/
def strictEqOpt (s : String) : Option String → Bool
  | none => false
  | some t => s == t

/-- JavaScript `s.startsWith(p)`: the characters of `p` are a prefix of the
characters of `s`. -/
def jsStartsWith (s p : String) : Bool :=
  List.isPrefixOf p.data s.data

/-- One network call made through the Stripe client. The argument of
`chargeRetrieve` is possibly-undefined because the fallback fetch passes
`pi.latest_charge`, which may be absent. -/
inductive ApiCall where
  | chargeRetrieve : Option String → ApiCall
  | piRetrieve : String → ApiCall
  | customerSearch : String → ApiCall
  deriving DecidableEq

/-- The external Stripe client: each operation either returns a parsed
response or throws (`Except.error`). -/
structure StripeAPI where
  chargesRetrieve : Option String → Except String Charge
  paymentIntentsRetrieve : String → Except String PaymentIntent
  customersSearch : String → Except String SearchResult

/-- True when the given call throws under the given client. -/
def apiCallFails (api : StripeAPI) : ApiCall → Bool
  | ApiCall.chargeRetrieve cid =>
      match api.chargesRetrieve cid with
      | Except.error _ => true
      | Except.ok _ => false
  | ApiCall.piRetrieve piId =>
      match api.paymentIntentsRetrieve piId with
      | Except.error _ => true
      | Except.ok _ => false
  | ApiCall.customerSearch q =>
      match api.customersSearch q with
      | Except.error _ => true
      | Except.ok _ => false

/-- The final classification test shared by `isUSBankTransfer` (line 40-41)
and `isPiUsBankTransfer` (line 58-59): false when
`payment_method_details` is absent, otherwise
`payment_method_details.type === "us_bank_account"`. -/
def chargeIsUsBank (c : Charge) : Bool :=
  match c.payment_method_details with
  | none => false
  | some d => d.type == "us_bank_account"

/-- Line 34 of `isUSBankTransfer`:
`pi.charges?.data.find(c => c.id === pi.latest_charge)`. -/
def findEmbeddedLatest (p : PaymentIntent) : Option Charge :=
  match p.charges with
  | none => none
  | some cl => cl.data.find? (fun c => strictEqOpt c.id p.latest_charge)

/-- Lines 33-41 of `isUSBankTransfer`: given the fetched payment intent,
return false if it has neither charges nor a latest_charge; look up the
latest charge in the embedded list; fall back to a network fetch by
`pi.latest_charge` when not found; classify. A thrown fallback fetch is
caught by the surrounding try/catch and yields false. -/
def classifyFromPi (api : StripeAPI) (p : PaymentIntent) (calls : List ApiCall) :
    Bool × List ApiCall :=
  if p.charges.isNone && !(strTruthy p.latest_charge) then (false, calls)
  else
    match findEmbeddedLatest p with
    | some latestCharge => (chargeIsUsBank latestCharge, calls)
    | none =>
      let calls2 := calls ++ [ApiCall.chargeRetrieve p.latest_charge]
      match api.chargesRetrieve p.latest_charge with
      | Except.error _ => (false, calls2)
      | Except.ok latestCharge => (chargeIsUsBank latestCharge, calls2)

/-- Lines 25-41 of `isUSBankTransfer`: if no payment-intent id was derived
(undefined or empty), return false; otherwise fetch the payment intent
(false if the fetch throws) and continue with `classifyFromPi`. -/
def retrievePiAndClassify (api : StripeAPI) (derivedPi : Option String)
    (calls : List ApiCall) : Bool × List ApiCall :=
  match derivedPi with
  | none => (false, calls)
  | some piId =>
    if piId == "" then (false, calls)
    else
      let calls2 := calls ++ [ApiCall.piRetrieve piId]
      match api.paymentIntentsRetrieve piId with
      | Except.error _ => (false, calls2)
      | Except.ok p => classifyFromPi api p calls2

/-- The `isUSBankTransfer(chargeId)` method (lines 11-46): derive a
payment-intent id from the input (directly for a `pi_` prefix; via a charge
fetch for a `py_` prefix, taking `charge.payment_intent` when truthy), then
resolve and classify. Any thrown error is caught and yields false; the trace
lists the network calls made, in order. -/
def isUSBankTransfer (api : StripeAPI) (chargeId : String) : Bool × List ApiCall :=
  let derivedPi : Option String :=
    if jsStartsWith chargeId "pi_" then some chargeId else none
  if jsStartsWith chargeId "py_" then
    let calls := [ApiCall.chargeRetrieve (some chargeId)]
    match api.chargesRetrieve (some chargeId) with
    | Except.error _ => (false, calls)
    | Except.ok charge =>
      let derivedPi2 :=
        if strTruthy charge.payment_intent then charge.payment_intent else derivedPi
      retrievePiAndClassify api derivedPi2 calls
  else
    retrievePiAndClassify api derivedPi []

/-- Line 51 of `isPiUsBankTransfer`: the id guard
`!(!paymentIntent.id || !paymentIntent.id.startsWith("pi_"))`. -/
def piIdGuard (p : PaymentIntent) : Bool :=
  match p.id with
  | none => false
  | some s => !(s == "") && jsStartsWith s "pi_"

/-- The `isPiUsBankTransfer(paymentIntent)` method (lines 48-65): false
unless the id is truthy and `pi_`-prefixed and `charges` is present;
otherwise find the entry of the embedded list matching `latest_charge` and
classify it. The method performs no network call, so its trace is empty. -/
def isPiUsBankTransfer (p : PaymentIntent) : Bool × List ApiCall :=
  if !(piIdGuard p) then (false, [])
  else
    match p.charges with
    | none => (false, [])
    | some cl =>
      match cl.data.find? (fun c => strictEqOpt c.id p.latest_charge) with
      | none => (false, [])
      | some latestCharge => (chargeIsUsBank latestCharge, [])

/-- The `getCustomersByEmail(email)` method (lines 67-83): search customers
by exact email; return the `data` list on success but `undefined` (`none`)
when the search throws. -/
def getCustomersByEmail (api : StripeAPI) (email : String) : Option (List Customer) :=
  match api.customersSearch ("email:\"" ++ email ++ "\"") with
  | Except.ok r => some r.data
  | Except.error _ => none

/-! ### Helper lemmas -/

/-- Two three-character prefixes of the same list agree on their second
character. -/
theorem isPrefixOf_three_second {x y z x2 y2 z2 : Char} {l : List Char}
    (h1 : List.isPrefixOf [x, y, z] l = true)
    (h2 : List.isPrefixOf [x2, y2, z2] l = true) : y = y2 := by
  match l with
  | [] => simp [List.isPrefixOf] at h1
  | [a] => simp [List.isPrefixOf] at h1
  | a :: b :: rest =>
    simp [List.isPrefixOf] at h1 h2
    exact h1.2.1.trans h2.2.1.symm

/-- A string starting with `"py_"` does not start with `"pi_"`. -/
theorem jsStartsWith_py_not_pi (s : String) (h : jsStartsWith s "py_" = true) :
    jsStartsWith s "pi_" = false := by
  unfold jsStartsWith at h ⊢
  have hpy : "py_".data = ['p', 'y', '_'] := by decide
  have hpi : "pi_".data = ['p', 'i', '_'] := by decide
  rw [hpy] at h
  rw [hpi]
  cases hb : List.isPrefixOf ['p', 'i', '_'] s.data with
  | false => rfl
  | true => exact absurd (isPrefixOf_three_second h hb) (by decide)

/-- A string starting with `"pi_"` does not start with `"py_"`. -/
theorem jsStartsWith_pi_not_py (s : String) (h : jsStartsWith s "pi_" = true) :
    jsStartsWith s "py_" = false := by
  unfold jsStartsWith at h ⊢
  have hpy : "py_".data = ['p', 'y', '_'] := by decide
  have hpi : "pi_".data = ['p', 'i', '_'] := by decide
  rw [hpi] at h
  rw [hpy]
  cases hb : List.isPrefixOf ['p', 'y', '_'] s.data with
  | false => rfl
  | true => exact absurd (isPrefixOf_three_second h hb) (by decide)

/-- A string starting with `"pi_"` is not empty. -/
theorem jsStartsWith_pi_ne_empty (s : String) (h : jsStartsWith s "pi_" = true) :
    (s == "") = false := by
  unfold jsStartsWith at h
  have hpi : "pi_".data = ['p', 'i', '_'] := by decide
  rw [hpi] at h
  have hne : s ≠ "" := by
    intro he
    rw [he] at h
    simp [List.isPrefixOf] at h
  exact beq_eq_false_iff_ne.mpr hne

/-- The classification step only appends to the call trace. -/
theorem classifyFromPi_calls (api : StripeAPI) (p : PaymentIntent)
    (calls : List ApiCall) :
    ∃ t, (classifyFromPi api p calls).2 = calls ++ t := by
  unfold classifyFromPi
  split
  · exact ⟨[], by simp⟩
  · split
    · exact ⟨[], by simp⟩
    · split
      · exact ⟨[ApiCall.chargeRetrieve p.latest_charge], rfl⟩
      · exact ⟨[ApiCall.chargeRetrieve p.latest_charge], rfl⟩

/-- When the derived payment-intent id is a truthy string, resolution
appends one payment-intent retrieve for it, then only classification
calls. -/
theorem retrievePi_calls_cons (api : StripeAPI) (piId : String)
    (calls : List ApiCall) (h : (piId == "") = false) :
    ∃ t, (retrievePiAndClassify api (some piId) calls).2 =
      calls ++ ApiCall.piRetrieve piId :: t := by
  cases hr : api.paymentIntentsRetrieve piId with
  | error e => exact ⟨[], by simp [retrievePiAndClassify, h, hr]⟩
  | ok p =>
    obtain ⟨t, ht⟩ := classifyFromPi_calls api p (calls ++ [ApiCall.piRetrieve piId])
    exact ⟨t, by simp [retrievePiAndClassify, h, hr, ht]⟩

/-- If the classification step returns `true`, every call in its trace
succeeded (given that every prior call succeeded). -/
theorem classifyFromPi_true_ok (api : StripeAPI) (p : PaymentIntent)
    (calls : List ApiCall)
    (hcalls : ∀ c ∈ calls, apiCallFails api c = false)
    (htrue : (classifyFromPi api p calls).1 = true) :
    ∀ c ∈ (classifyFromPi api p calls).2, apiCallFails api c = false := by
  by_cases hg : (p.charges.isNone && !(strTruthy p.latest_charge)) = true
  · simp [classifyFromPi, hg] at htrue
  · cases hf : findEmbeddedLatest p with
    | some lc =>
      simp only [classifyFromPi, hg, if_neg, Bool.false_eq_true, not_false_eq_true,
        hf, if_false]
      exact hcalls
    | none =>
      cases hr : api.chargesRetrieve p.latest_charge with
      | error e => simp [classifyFromPi, hg, hf, hr] at htrue
      | ok lc =>
        simp only [classifyFromPi, hg, Bool.false_eq_true, not_false_eq_true,
          hf, hr, if_false]
        intro c hc
        rcases List.mem_append.mp hc with h1 | h2
        · exact hcalls c h1
        · rw [List.mem_singleton.mp h2]
          simp [apiCallFails, hr]

/-- If the resolve-and-classify step returns `true`, every call in its
trace succeeded (given that every prior call succeeded). -/
theorem retrievePi_true_ok (api : StripeAPI) (d : Option String)
    (calls : List ApiCall)
    (hcalls : ∀ c ∈ calls, apiCallFails api c = false)
    (htrue : (retrievePiAndClassify api d calls).1 = true) :
    ∀ c ∈ (retrievePiAndClassify api d calls).2, apiCallFails api c = false := by
  cases d with
  | none => simp [retrievePiAndClassify] at htrue
  | some piId =>
    by_cases he : (piId == "") = true
    · simp [retrievePiAndClassify, he] at htrue
    · rw [Bool.not_eq_true] at he
      cases hr : api.paymentIntentsRetrieve piId with
      | error e => simp [retrievePiAndClassify, he, hr] at htrue
      | ok p =>
        have hcalls2 : ∀ c ∈ calls ++ [ApiCall.piRetrieve piId],
            apiCallFails api c = false := by
          intro c hc
          rcases List.mem_append.mp hc with h1 | h2
          · exact hcalls c h1
          · rw [List.mem_singleton.mp h2]
            simp [apiCallFails, hr]
        simp only [retrievePiAndClassify, he, Bool.false_eq_true, not_false_eq_true,
          hr, if_false] at htrue ⊢
        exact classifyFromPi_true_ok api p (calls ++ [ApiCall.piRetrieve piId])
          hcalls2 htrue

/-- If `isUSBankTransfer` returns `true`, every call in its trace
succeeded. -/
theorem isUSBankTransfer_true_ok (api : StripeAPI) (chargeId : String)
    (htrue : (isUSBankTransfer api chargeId).1 = true) :
    ∀ c ∈ (isUSBankTransfer api chargeId).2, apiCallFails api c = false := by
  by_cases hpy : jsStartsWith chargeId "py_" = true
  · cases hr : api.chargesRetrieve (some chargeId) with
    | error e => simp [isUSBankTransfer, hpy, hr] at htrue
    | ok charge =>
      have hcalls : ∀ c ∈ [ApiCall.chargeRetrieve (some chargeId)],
          apiCallFails api c = false := by
        intro c hc
        rw [List.mem_singleton.mp hc]
        simp [apiCallFails, hr]
      simp only [isUSBankTransfer, hpy, hr, if_true] at htrue ⊢
      exact retrievePi_true_ok api _ _ hcalls htrue
  · rw [Bool.not_eq_true] at hpy
    simp only [isUSBankTransfer, hpy, Bool.false_eq_true, if_false] at htrue ⊢
    exact retrievePi_true_ok api _ _ (by simp) htrue

/-! ### Concrete fixtures for witnesses and counterexamples -/

/-- A client whose every call throws. -/
def apiDown : StripeAPI where
  chargesRetrieve := fun _ => Except.error "network error"
  paymentIntentsRetrieve := fun _ => Except.error "network error"
  customersSearch := fun _ => Except.error "network error"

/-- A charge settled via US bank account. -/
def chUsBank : Charge where
  id := "ch_1"
  payment_method_details := some { type := "us_bank_account" }

/-- A payment intent whose embedded list contains the latest charge. -/
def piWithMatch : PaymentIntent where
  id := some "pi_1"
  latest_charge := some "ch_1"
  charges := some { data := [chUsBank] }

/-- A payment intent with a latest_charge id but an empty embedded list. -/
def piNoMatch : PaymentIntent where
  id := some "pi_2"
  latest_charge := some "ch_2"
  charges := some { data := [] }

/-- A payment intent with neither charges nor a latest_charge. -/
def piBare : PaymentIntent where
  id := some "pi_3"

/-- A payment intent with no id but a matching us_bank_account charge. -/
def piNoId : PaymentIntent where
  id := none
  latest_charge := some "ch_1"
  charges := some { data := [chUsBank] }

/-- A charge carrying a payment-intent back-reference. -/
def chWithPi : Charge where
  id := "py_1"
  payment_intent := some "pi_9"

/-- A client whose charge retrieve returns `chWithPi`. -/
def apiChargeWithPi : StripeAPI where
  chargesRetrieve := fun _ => Except.ok chWithPi
  paymentIntentsRetrieve := fun _ => Except.error "down"
  customersSearch := fun _ => Except.error "down"

/-- A charge with no payment-intent back-reference. -/
def chNoPi : Charge where
  id := "py_999"

/-- A client whose charge retrieve returns `chNoPi`. -/
def apiChargeNoPi : StripeAPI where
  chargesRetrieve := fun _ => Except.ok chNoPi
  paymentIntentsRetrieve := fun _ => Except.error "down"
  customersSearch := fun _ => Except.error "down"

/-- A concrete customer record. -/
def custA : Customer where
  id := "cus_1"
  email := "a@b.com"

/-- A client whose customer search succeeds with one customer. -/
def apiSearchOk : StripeAPI where
  chargesRetrieve := fun _ => Except.error "down"
  paymentIntentsRetrieve := fun _ => Except.error "down"
  customersSearch := fun _ => Except.ok { data := [custA] }

/-! ### Claim theorems -/

/-- C1: for every charge record, the final classification test (shared by
`isUSBankTransfer` and `isPiUsBankTransfer`) returns true iff the record
has payment-method details whose `type` equals the exact literal
`"us_bank_account"`; hence it is false for every other string (case
variants included) and false when the details are absent. -/
theorem chargeIsUsBank_iff_type_us_bank_account (c : Charge) :
    chargeIsUsBank c = true ↔
      c.payment_method_details = some { type := "us_bank_account" } := by
  unfold chargeIsUsBank
  cases c.payment_method_details with
  | none => simp
  | some d => cases d with | mk t => simp

/-- C2: if any network call made during `isUSBankTransfer` fails, the
method returns false (the embedding is a total function into `Bool`, so no
error is ever propagated to the caller). -/
theorem isUSBankTransfer_false_of_call_failure (api : StripeAPI)
    (chargeId : String)
    (h : ∃ c ∈ (isUSBankTransfer api chargeId).2, apiCallFails api c = true) :
    (isUSBankTransfer api chargeId).1 = false := by
  rcases h with ⟨c, hc, hfail⟩
  cases hres : (isUSBankTransfer api chargeId).1 with
  | false => rfl
  | true =>
    rw [isUSBankTransfer_true_ok api chargeId hres c hc] at hfail
    exact absurd hfail (by decide)

/-- Witness for C2: with a client whose every call throws, classifying
"pi_1" makes a failing call and returns false. -/
theorem isUSBankTransfer_false_of_call_failure_witness :
    (∃ c ∈ (isUSBankTransfer apiDown "pi_1").2, apiCallFails apiDown c = true) ∧
      (isUSBankTransfer apiDown "pi_1").1 = false :=
  ⟨by decide, isUSBankTransfer_false_of_call_failure apiDown "pi_1" (by decide)⟩

/-- C3: for every fetched payment-intent record: if the embedded charge
list contains an entry whose id equals `latest_charge`, no fallback charge
fetch occurs (the trace is unchanged); if the record carries a truthy
`latest_charge` id but the embedded lookup finds no entry (list absent or
no match), exactly one fallback charge fetch, by that `latest_charge` id,
occurs. -/
theorem classifyFromPi_fallback_fetch_policy (api : StripeAPI)
    (p : PaymentIntent) (calls : List ApiCall) :
    ((∃ cl, p.charges = some cl ∧
        ∃ c ∈ cl.data, strictEqOpt c.id p.latest_charge = true) →
      (classifyFromPi api p calls).2 = calls) ∧
    (strTruthy p.latest_charge = true → findEmbeddedLatest p = none →
      (classifyFromPi api p calls).2 =
        calls ++ [ApiCall.chargeRetrieve p.latest_charge]) := by
  constructor
  · rintro ⟨cl, hcl, c, hmem, hpred⟩
    have hfind : (cl.data.find? (fun c => strictEqOpt c.id p.latest_charge)).isSome = true := by
      rw [List.find?_isSome]
      exact ⟨c, hmem, hpred⟩
    obtain ⟨lc, hlc⟩ := Option.isSome_iff_exists.mp hfind
    have hemb : findEmbeddedLatest p = some lc := by
      unfold findEmbeddedLatest
      rw [hcl]
      exact hlc
    have hg : (p.charges.isNone && !(strTruthy p.latest_charge)) = false := by
      rw [hcl]
      simp
    simp [classifyFromPi, hg, hemb]
  · intro ht hnone
    have hg : (p.charges.isNone && !(strTruthy p.latest_charge)) = false := by
      rw [ht]
      simp
    cases hr : api.chargesRetrieve p.latest_charge with
    | error e => simp [classifyFromPi, hg, hnone, hr]
    | ok lc => simp [classifyFromPi, hg, hnone, hr]

/-- Witness for C3: a matching embedded charge adds no call; an empty
embedded list with a latest_charge id adds exactly the fallback fetch. -/
theorem classifyFromPi_fallback_fetch_policy_witness :
    (classifyFromPi apiDown piWithMatch []).2 = [] ∧
      (classifyFromPi apiDown piNoMatch []).2 =
        [ApiCall.chargeRetrieve (some "ch_2")] := by
  constructor
  · exact (classifyFromPi_fallback_fetch_policy apiDown piWithMatch []).1
      ⟨{ data := [chUsBank] }, rfl, chUsBank, by decide, by decide⟩
  · simpa using (classifyFromPi_fallback_fetch_policy apiDown piNoMatch []).2
      (by decide) (by decide)

/-- C4 counterexample: the identifier "ch_123" does not carry the "pi_"
prefix, yet `isUSBankTransfer` makes no charge fetch at all (its call trace
is empty and it returns false): a charge fetch happens only for
"py_"-prefixed identifiers. -/
theorem no_fetch_for_unrecognized_id_cex :
    jsStartsWith "ch_123" "pi_" = false ∧
      isUSBankTransfer apiDown "ch_123" = (false, []) := by
  decide

/-- C4 amended: for every input identifier with the charge prefix "py_",
`isUSBankTransfer` performs a network fetch of the charge record by that
identifier, and if the fetched record carries a (truthy) payment-intent
reference, that reference is used as the resolved payment-intent
identifier: it is the id of the payment-intent retrieve that follows. -/
theorem py_prefixed_fetch_and_resolve (api : StripeAPI) (chargeId : String)
    (charge : Charge) (piId : String)
    (hpy : jsStartsWith chargeId "py_" = true)
    (hr : api.chargesRetrieve (some chargeId) = Except.ok charge)
    (hpi : charge.payment_intent = some piId) (hne : (piId == "") = false) :
    ∃ t, (isUSBankTransfer api chargeId).2 =
      ApiCall.chargeRetrieve (some chargeId) :: ApiCall.piRetrieve piId :: t := by
  have htr : strTruthy (some piId) = true := by
    simp [strTruthy, hne]
  obtain ⟨t, ht⟩ :=
    retrievePi_calls_cons api piId [ApiCall.chargeRetrieve (some chargeId)] hne
  refine ⟨t, ?_⟩
  simp only [isUSBankTransfer, hpy, hr, hpi, htr, if_true]
  rw [ht]
  simp

/-- Witness for C4 (amended): fetching "py_1" yields a charge referencing
"pi_9", and the trace starts with that charge fetch then the "pi_9"
retrieve. -/
theorem py_prefixed_fetch_and_resolve_witness :
    ∃ t, (isUSBankTransfer apiChargeWithPi "py_1").2 =
      ApiCall.chargeRetrieve (some "py_1") :: ApiCall.piRetrieve "pi_9" :: t :=
  py_prefixed_fetch_and_resolve apiChargeWithPi "py_1" chWithPi "pi_9"
    (by decide) rfl rfl (by decide)

/-- C5: for every "py_"-prefixed identifier, the resolution step performs
exactly one charge-lookup call: it is the first call of the trace and the
next call, if any, is a payment-intent retrieve (not another charge
lookup). If the fetched charge carries no truthy payment-intent reference,
the method returns false with that single call as its entire trace. -/
theorem py_prefixed_single_resolution_fetch (api : StripeAPI)
    (chargeId : String) (hpy : jsStartsWith chargeId "py_" = true) :
    (∃ rest, (isUSBankTransfer api chargeId).2 =
        ApiCall.chargeRetrieve (some chargeId) :: rest ∧
        (rest = [] ∨ ∃ piId rest2, rest = ApiCall.piRetrieve piId :: rest2)) ∧
    (∀ charge, api.chargesRetrieve (some chargeId) = Except.ok charge →
      strTruthy charge.payment_intent = false →
      isUSBankTransfer api chargeId =
        (false, [ApiCall.chargeRetrieve (some chargeId)])) := by
  have hnpi : jsStartsWith chargeId "pi_" = false :=
    jsStartsWith_py_not_pi chargeId hpy
  constructor
  · cases hr : api.chargesRetrieve (some chargeId) with
    | error e =>
      exact ⟨[], by simp [isUSBankTransfer, hpy, hr], Or.inl rfl⟩
    | ok charge =>
      by_cases htr : strTruthy charge.payment_intent = true
      · cases hpiv : charge.payment_intent with
        | none =>
          rw [hpiv] at htr
          simp [strTruthy] at htr
        | some piId =>
          have hne : (piId == "") = false := by
            rw [hpiv] at htr
            simpa [strTruthy] using htr
          have hts : strTruthy (some piId) = true := by
            simp [strTruthy, hne]
          obtain ⟨t, ht⟩ := retrievePi_calls_cons api piId
            [ApiCall.chargeRetrieve (some chargeId)] hne
          refine ⟨ApiCall.piRetrieve piId :: t, ?_, Or.inr ⟨piId, t, rfl⟩⟩
          simp only [isUSBankTransfer, hpy, hr, hpiv, hts, if_true]
          rw [ht]
          simp
      · rw [Bool.not_eq_true] at htr
        refine ⟨[], ?_, Or.inl rfl⟩
        simp [isUSBankTransfer, hpy, hnpi, hr, htr, retrievePiAndClassify]
  · intro charge hr htr
    simp [isUSBankTransfer, hpy, hnpi, hr, htr, retrievePiAndClassify]

/-- Witness for C5: "py_999" resolves to a charge with no payment_intent
field; result is false after exactly one network call. -/
theorem py_prefixed_single_resolution_fetch_witness :
    isUSBankTransfer apiChargeNoPi "py_999" =
      (false, [ApiCall.chargeRetrieve (some "py_999")]) :=
  (py_prefixed_single_resolution_fetch apiChargeNoPi "py_999" (by decide)).2
    chNoPi rfl rfl

/-- C6: for every "pi_"-prefixed identifier, the identifier is used
directly as the resolved payment-intent id and the resolution step performs
no charge-lookup call: the first call of the trace is the payment-intent
retrieve by the input identifier itself. -/
theorem pi_prefixed_direct_resolution (api : StripeAPI) (chargeId : String)
    (hpi : jsStartsWith chargeId "pi_" = true) :
    ∃ t, (isUSBankTransfer api chargeId).2 =
      ApiCall.piRetrieve chargeId :: t := by
  have hnpy : jsStartsWith chargeId "py_" = false :=
    jsStartsWith_pi_not_py chargeId hpi
  have hne : (chargeId == "") = false := jsStartsWith_pi_ne_empty chargeId hpi
  obtain ⟨t, ht⟩ := retrievePi_calls_cons api chargeId [] hne
  refine ⟨t, ?_⟩
  simp only [isUSBankTransfer, hpi, hnpy, Bool.false_eq_true, if_false, if_true]
  rw [ht]
  simp

/-- Witness for C6: classifying "pi_1" starts with the payment-intent
retrieve of "pi_1" and no charge lookup precedes it. -/
theorem pi_prefixed_direct_resolution_witness :
    ∃ t, (isUSBankTransfer apiDown "pi_1").2 = ApiCall.piRetrieve "pi_1" :: t :=
  pi_prefixed_direct_resolution apiDown "pi_1" (by decide)

/-- C7: `getCustomersByEmail` returns the search response's customer list
when the search succeeds and the absent marker (`none`) when it throws;
the absent marker is distinct from a successful empty result. -/
theorem getCustomersByEmail_semantics (api : StripeAPI) (email : String) :
    (∀ r, api.customersSearch ("email:\"" ++ email ++ "\"") = Except.ok r →
      getCustomersByEmail api email = some r.data) ∧
    (∀ e, api.customersSearch ("email:\"" ++ email ++ "\"") = Except.error e →
      getCustomersByEmail api email = none ∧
        getCustomersByEmail api email ≠ some ([] : List Customer)) := by
  constructor
  · intro r hr
    simp [getCustomersByEmail, hr]
  · intro e he
    constructor
    · simp [getCustomersByEmail, he]
    · simp [getCustomersByEmail, he]

/-- Witness for C7: a succeeding search returns its data list; a throwing
search returns the absent marker. -/
theorem getCustomersByEmail_semantics_witness :
    getCustomersByEmail apiSearchOk "a@b.com" = some [custA] ∧
      getCustomersByEmail apiDown "a@b.com" = none :=
  ⟨(getCustomersByEmail_semantics apiSearchOk "a@b.com").1 { data := [custA] } rfl,
    ((getCustomersByEmail_semantics apiDown "a@b.com").2 "network error" rfl).1⟩

/-- C8: a fetched payment intent carrying neither an embedded charge list
nor a truthy `latest_charge` reference yields false immediately, with no
further network call (the trace is unchanged). -/
theorem classifyFromPi_nothing_to_classify (api : StripeAPI)
    (p : PaymentIntent) (calls : List ApiCall) (h1 : p.charges = none)
    (h2 : strTruthy p.latest_charge = false) :
    classifyFromPi api p calls = (false, calls) := by
  simp [classifyFromPi, h1, h2]

/-- Witness for C8: a bare payment intent is classified false with no
call. -/
theorem classifyFromPi_nothing_to_classify_witness :
    classifyFromPi apiDown piBare [] = (false, []) :=
  classifyFromPi_nothing_to_classify apiDown piBare [] rfl rfl

/-- C9: `isPiUsBankTransfer` never performs a network call (its trace is
empty for every input); a missing embedded charge list yields false, and a
`latest_charge` with no matching entry in the embedded list yields false
rather than triggering a fallback fetch. -/
theorem isPiUsBankTransfer_no_network (p : PaymentIntent) :
    (isPiUsBankTransfer p).2 = [] ∧
    (p.charges = none → (isPiUsBankTransfer p).1 = false) ∧
    (∀ cl, p.charges = some cl →
      cl.data.find? (fun c => strictEqOpt c.id p.latest_charge) = none →
      (isPiUsBankTransfer p).1 = false) := by
  refine ⟨?_, ?_, ?_⟩
  · unfold isPiUsBankTransfer
    split
    · rfl
    · split
      · rfl
      · split
        · rfl
        · rfl
  · intro h
    by_cases hg : piIdGuard p = true
    · simp [isPiUsBankTransfer, hg, h]
    · rw [Bool.not_eq_true] at hg
      simp [isPiUsBankTransfer, hg]
  · intro cl hcl hfind
    by_cases hg : piIdGuard p = true
    · simp [isPiUsBankTransfer, hg, hcl, hfind]
    · rw [Bool.not_eq_true] at hg
      simp [isPiUsBankTransfer, hg]

/-- Witness for C9: a payment intent without charges yields false and an
empty trace. -/
theorem isPiUsBankTransfer_no_network_witness :
    (isPiUsBankTransfer piBare).2 = [] ∧ (isPiUsBankTransfer piBare).1 = false :=
  ⟨(isPiUsBankTransfer_no_network piBare).1,
    (isPiUsBankTransfer_no_network piBare).2.1 rfl⟩

/-- C10: when the payment intent's id guard fails (id absent, empty, or
not "pi_"-prefixed), `isPiUsBankTransfer` returns false with no network
call, regardless of the embedded charges. -/
theorem isPiUsBankTransfer_false_of_bad_id (p : PaymentIntent)
    (h : piIdGuard p = false) : isPiUsBankTransfer p = (false, []) := by
  simp [isPiUsBankTransfer, h]

/-- Witness for C10: a record with no id whose embedded list does contain
the matching us_bank_account charge is still classified false. -/
theorem isPiUsBankTransfer_false_of_bad_id_witness :
    piNoId.charges = some { data := [chUsBank] } ∧
      chargeIsUsBank chUsBank = true ∧
      isPiUsBankTransfer piNoId = (false, []) :=
  ⟨rfl, by decide, isPiUsBankTransfer_false_of_bad_id piNoId (by decide)⟩

end RriStripeNp
